import Mathlib

/-!
Verification of the sales-metrics dashboard repository.

The repository persists per-(date, representative, metric) rows into a MySQL
table `daily_metrics` (schema created in `sample-data.js`, `ensureTableExists`).
Three writer/maintenance scripts and one Express server operate on it:

* `add-today-data.js`   — writes six `calculated_*` metrics for today;
* `sample-data.js`      — writes six `master_*` metrics for a 30-day range;
* `verify-metrics.js`   — optionally deletes `calculated_%` rows (`--cleanup`);
* the dashboard server  — reads the table with filtered/aggregated queries.

Numbers are modelled as rationals; JavaScript `Math.round` is half-up rounding
(`Math.round x = ⌊x + 1/2⌋` for the non-negative values arising here, and the
scripts only produce non-negative values), and `Number.prototype.toFixed(2)`
followed by storage into the `DECIMAL(15,2)` column is modelled as exact
half-up rounding to two decimal places (exact for every value the scripts
produce, which are integers or have short decimal expansions).
`Math.random()` draws are explicit rational parameters: each generated metric
value is a function of the draws the code consumes for it, in source order.
-/

/-- JavaScript `Math.round`: round half-up (toward positive infinity). -/
def jsRound (x : ℚ) : ℤ := ⌊x + 1/2⌋

/-- Persistence of a value through `value.toFixed(2)` into the
`DECIMAL(15,2)` column: half-up rounding to two decimal places. -/
def toFixed2 (x : ℚ) : ℚ := (jsRound (100 * x) : ℚ) / 100

/-- The scripts' "round to nearest 100" idiom:
`Math.round(value / 100) * 100`. -/
def roundTo100 (x : ℚ) : ℤ := jsRound (x / 100) * 100

theorem jsRound_intCast (n : ℤ) : jsRound (n : ℚ) = n := by
  unfold jsRound
  rw [add_comm, Int.floor_add_int]
  norm_num

theorem jsRound_le (x : ℚ) : (jsRound x : ℚ) ≤ x + 1/2 := Int.floor_le _

theorem lt_jsRound (x : ℚ) : x - 1/2 < jsRound x := by
  unfold jsRound
  have h := Int.lt_floor_add_one (x + 1/2)
  linarith

theorem jsRound_mono {x y : ℚ} (h : x ≤ y) : jsRound x ≤ jsRound y :=
  Int.floor_le_floor (by linarith)

theorem jsRound_nonneg {x : ℚ} (h : 0 ≤ x) : 0 ≤ jsRound x := by
  have h0 : (0:ℤ) ≤ jsRound 0 := by unfold jsRound; norm_num
  exact le_trans h0 (jsRound_mono h)

theorem jsRound_add_int (x : ℚ) (n : ℤ) : jsRound (x + n) = jsRound x + n := by
  unfold jsRound
  rw [show x + n + 1/2 = x + 1/2 + (n:ℚ) by ring, Int.floor_add_int]

/-- Rounding to two decimals is exact on integers. -/
theorem toFixed2_intCast (n : ℤ) : toFixed2 (n : ℚ) = n := by
  unfold toFixed2
  rw [show (100 : ℚ) * n = ((100 * n : ℤ) : ℚ) by push_cast; ring,
    jsRound_intCast]
  push_cast
  ring

/-- The metric types of the `metric_type` enum column. -/
inductive MType where
  | count
  | percentage
  | currency
deriving DecidableEq, Repr

/-- One row of the `daily_metrics` table.  The auto-increment `id` and the
timestamp columns are not modelled: no query in the repository reads them,
and `ON DUPLICATE KEY UPDATE` touches only `metric_value` and `updated_at`. -/
structure MetricRow where
  metricDate : String
  representative : String
  metricName : String
  metricValue : ℚ
  metricType : MType
  source : String
deriving DecidableEq, Repr

/-- The unique composite key of `daily_metrics`:
`UNIQUE KEY unique_metric (metric_date, representative, metric_name)`. -/
def rowKey (r : MetricRow) : String × String × String :=
  (r.metricDate, r.representative, r.metricName)

/-- MySQL `LIKE` pattern matching on character lists: `%` matches any
sequence of characters, `_` matches exactly one character, any other
pattern character matches itself. -/
def likeChars : List Char → List Char → Bool
  | [], s => s.isEmpty
  | p :: ps, [] => if p = '%' then likeChars ps [] else false
  | p :: ps, c :: s =>
    if p = '%' then likeChars ps (c :: s) || likeChars (p :: ps) s
    else if p = '_' then likeChars ps s
    else p = c && likeChars ps s
termination_by p s => p.length + s.length

/-- MySQL `LIKE` on strings. -/
def likeStr (pat s : String) : Bool := likeChars pat.data s.data

theorem likeChars_percent_nil (s : List Char) : likeChars ['%'] s = true := by
  induction s with
  | nil => simp [likeChars]
  | cons c s ih => simp [likeChars, ih]

/-- A pattern headed by a literal character matches exactly the strings
headed by that character whose tail matches the rest of the pattern. -/
theorem likeChars_lit_cons {a : Char} (ha1 : a ≠ '%') (ha2 : a ≠ '_')
    (ps s : List Char) :
    likeChars (a :: ps) s = true ↔
      ∃ t, s = a :: t ∧ likeChars ps t = true := by
  cases s with
  | nil => simp [likeChars, ha1]
  | cons c t =>
    rw [show likeChars (a :: ps) (c :: t) =
        (if a = '%' then likeChars ps (c :: t) || likeChars (a :: ps) t
         else if a = '_' then likeChars ps t
         else a = c && likeChars ps t) from by rw [likeChars],
      if_neg ha1, if_neg ha2]
    simp only [Bool.and_eq_true, decide_eq_true_eq]
    constructor
    · rintro ⟨rfl, h⟩
      exact ⟨t, rfl, h⟩
    · rintro ⟨t', ht', h⟩
      injection ht' with h1 h2
      subst h1
      subst h2
      exact ⟨rfl, h⟩

/-- A pattern that is a run of literal characters followed by a sub-pattern
matches exactly the strings consisting of that literal run followed by a
match of the sub-pattern. -/
theorem likeChars_lits_append {L : List Char}
    (hL : ∀ c ∈ L, c ≠ '%' ∧ c ≠ '_') (ps s : List Char) :
    likeChars (L ++ ps) s = true ↔
      ∃ t, s = L ++ t ∧ likeChars ps t = true := by
  induction L generalizing s with
  | nil => simp
  | cons a L ih =>
    have ha := hL a (by simp)
    rw [List.cons_append, likeChars_lit_cons ha.1 ha.2]
    constructor
    · rintro ⟨t, rfl, h⟩
      obtain ⟨u, rfl, hu⟩ := (ih (fun c hc => hL c (by simp [hc])) t).mp h
      exact ⟨u, rfl, hu⟩
    · rintro ⟨u, rfl, hu⟩
      exact ⟨L ++ u, rfl,
        (ih (fun c hc => hL c (by simp [hc])) (L ++ u)).mpr ⟨u, rfl, hu⟩⟩

/-- A leading `%` matches an arbitrary prefix. -/
theorem likeChars_percent_cons (ps s : List Char) :
    likeChars ('%' :: ps) s = true ↔
      ∃ s1 s2, s = s1 ++ s2 ∧ likeChars ps s2 = true := by
  induction s with
  | nil =>
    simp only [likeChars, reduceIte]
    constructor
    · intro h
      exact ⟨[], [], rfl, h⟩
    · rintro ⟨s1, s2, h, hs⟩
      obtain ⟨rfl, rfl⟩ := List.append_eq_nil.mp h.symm
      exact hs
  | cons c s ih =>
    rw [show likeChars ('%' :: ps) (c :: s) =
        (likeChars ps (c :: s) || likeChars ('%' :: ps) s) from by
      rw [likeChars]; simp]
    simp only [Bool.or_eq_true]
    constructor
    · rintro (h | h)
      · exact ⟨[], c :: s, rfl, h⟩
      · obtain ⟨s1, s2, rfl, hs⟩ := ih.mp h
        exact ⟨c :: s1, s2, rfl, hs⟩
    · rintro ⟨s1, s2, h, hs⟩
      cases s1 with
      | nil =>
        left
        have h2 : s2 = c :: s := by simpa using h.symm
        rwa [h2] at hs
      | cons a s1 =>
        right
        obtain ⟨h1, h2⟩ : c = a ∧ s = s1 ++ s2 := by simpa using h
        exact ih.mpr ⟨s1, s2, h2, hs⟩

/-- A pattern of the shape `<literals>_%` matches exactly the strings that
extend the literal run by at least one (arbitrary) character.  This is the
shape of the queries' `'calculated_%'` and `'master_%'` patterns — note that
the `_` in them is the SQL single-character wildcard, not a literal. -/
theorem likeChars_lits_underscore_pct {L : List Char}
    (hL : ∀ c ∈ L, c ≠ '%' ∧ c ≠ '_') (s : List Char) :
    likeChars (L ++ ['_', '%']) s = true ↔ ∃ c t, s = L ++ c :: t := by
  rw [likeChars_lits_append hL]
  constructor
  · rintro ⟨t, rfl, ht⟩
    cases t with
    | nil => simp [likeChars] at ht
    | cons c t => exact ⟨c, t, rfl⟩
  · rintro ⟨c, t, rfl⟩
    refine ⟨c :: t, rfl, ?_⟩
    rw [show likeChars ['_', '%'] (c :: t) = likeChars ['%'] t from by
      rw [likeChars]; simp]
    exact likeChars_percent_nil t

/-- A pattern of the shape `%<literals>%` matches exactly the strings that
contain the literal run as a contiguous substring. -/
theorem likeChars_pct_lits_pct {L : List Char}
    (hL : ∀ c ∈ L, c ≠ '%' ∧ c ≠ '_') (s : List Char) :
    likeChars ('%' :: (L ++ ['%'])) s = true ↔
      ∃ s1 s2, s = s1 ++ (L ++ s2) := by
  rw [likeChars_percent_cons]
  constructor
  · rintro ⟨s1, s2, rfl, hs⟩
    obtain ⟨t, rfl, _⟩ := (likeChars_lits_append hL ['%'] s2).mp hs
    exact ⟨s1, t, rfl⟩
  · rintro ⟨s1, s2, rfl⟩
    exact ⟨s1, L ++ s2, rfl,
      (likeChars_lits_append hL ['%'] (L ++ s2)).mpr
        ⟨s2, rfl, likeChars_percent_nil s2⟩⟩

/-- Characterization of the `'calculated_%'` pattern used all over the
repository: it matches the names consisting of `calculated` followed by at
least one arbitrary character (the `_` is a wildcard). -/
theorem likeStr_calculated_iff (s : String) :
    likeStr "calculated_%" s = true ↔
      ∃ c t, s.data = "calculated".data ++ c :: t := by
  have hp : ("calculated_%").data = "calculated".data ++ ['_', '%'] := rfl
  rw [likeStr, hp, likeChars_lits_underscore_pct (by decide)]

/-- Characterization of the `'master_%'` pattern. -/
theorem likeStr_master_iff (s : String) :
    likeStr "master_%" s = true ↔
      ∃ c t, s.data = "master".data ++ c :: t := by
  have hp : ("master_%").data = "master".data ++ ['_', '%'] := rfl
  rw [likeStr, hp, likeChars_lits_underscore_pct (by decide)]

/-- Both generator scripts' per-representative trend factor:
`representative === 'sierra' ? 1.2 : representative === 'mikaela' ? 1.0 : 0.8`
(the same expression appears in `add-today-data.js` and `sample-data.js`). -/
def repFactor (rep : String) : ℚ :=
  if rep = "sierra" then 12/10 else if rep = "mikaela" then 1 else 8/10

namespace AddTodayData

/-- Value for `appointments_booked` in `add-today-data.js`
(`Math.round(5 * repFactor + (Math.random() * 5))`); `r` is the
`Math.random()` draw. -/
def bookedValue (f r : ℚ) : ℤ := jsRound (5 * f + r * 5)

/-- Value for `appointments_canceled`
(`Math.round(1 * repFactor + (Math.random() * 2))`). -/
def canceledValue (f r : ℚ) : ℤ := jsRound (1 * f + r * 2)

/-- Value for `appointments_conducted`: the script draws a fresh `booked`
and a fresh `canceled` (two new `Math.random()` calls) and stores
`Math.max(0, booked - canceled)`. -/
def conductedValue (f r1 r2 : ℚ) : ℤ :=
  max 0 (jsRound (5 * f + r1 * 5) - jsRound (1 * f + r2 * 2))

/-- Value for `average_deal_size`
(`2000 + (4000 * repFactor) + (Math.random() * 2000)`, then
`Math.round(value / 100) * 100`). -/
def avgDealSizeValue (f r : ℚ) : ℤ := roundTo100 (2000 + 4000 * f + r * 2000)

/-- Value for `close_rate`
(`45 + (20 * repFactor) + (Math.random() * 15)`, then
`value = Math.min(100, value)`). -/
def closeRateValue (f r : ℚ) : ℚ := min 100 (45 + 20 * f + r * 15)

/-- Value for `show_rate`
(`65 + (15 * repFactor) + (Math.random() * 15)`, then
`value = Math.min(100, value)`). -/
def showRateValue (f r : ℚ) : ℚ := min 100 (65 + 15 * f + r * 15)

/-- The six rows `generateDataForRepresentative` of `add-today-data.js`
produces for one representative on one date, in loop order
(`calculatedMetrics`), with the `calculated_` prefix applied to each name,
each value persisted through `value.toFixed(2)`, and `source` set to
`'today-data-script'`.  `r1 … r7` are the seven `Math.random()` draws the
loop consumes, in source order (one for booked, one for canceled, two for
conducted, one for average_deal_size, close_rate and show_rate each). -/
def generateDataForRepresentative (date rep : String)
    (r1 r2 r3 r4 r5 r6 r7 : ℚ) : List MetricRow :=
  [⟨date, rep, "calculated_appointments_booked",
      toFixed2 (bookedValue (repFactor rep) r1), .count, "today-data-script"⟩,
   ⟨date, rep, "calculated_appointments_canceled",
      toFixed2 (canceledValue (repFactor rep) r2), .count, "today-data-script"⟩,
   ⟨date, rep, "calculated_appointments_conducted",
      toFixed2 (conductedValue (repFactor rep) r3 r4), .count,
      "today-data-script"⟩,
   ⟨date, rep, "calculated_average_deal_size",
      toFixed2 (avgDealSizeValue (repFactor rep) r5), .currency,
      "today-data-script"⟩,
   ⟨date, rep, "calculated_close_rate",
      toFixed2 (closeRateValue (repFactor rep) r6), .percentage,
      "today-data-script"⟩,
   ⟨date, rep, "calculated_show_rate",
      toFixed2 (showRateValue (repFactor rep) r7), .percentage,
      "today-data-script"⟩]

end AddTodayData

namespace SampleData

/-- The per-date trend factor of `sample-data.js`:
`1 + daysSinceStart * 0.01`. -/
def dateFactor (daysSinceStart : ℤ) : ℚ := 1 + daysSinceStart / 100

/-- Value for `new_clients_closed`
(`Math.round(3 * repFactor * dateFactor + Math.random() * 4)`). -/
def newClientsValue (f d r : ℚ) : ℤ := jsRound (3 * f * d + r * 4)

/-- Value for `organic_clients_closed`
(`Math.round(2 * repFactor * dateFactor + Math.random() * 3)`). -/
def organicClientsValue (f d r : ℚ) : ℤ := jsRound (2 * f * d + r * 3)

/-- Value for `total_new_clients_closed`: the script draws a fresh
`newClients` and a fresh `organicClients` (two new `Math.random()` calls)
and stores their sum. -/
def totalClientsValue (f d r1 r2 : ℚ) : ℤ :=
  newClientsValue f d r1 + organicClientsValue f d r2

/-- Raw (pre-rounding) draw for `new_client_revenue`:
`5000 + 8000 * repFactor * dateFactor + Math.random() * 2000`. -/
def newRevenueRaw (f d r : ℚ) : ℚ := 5000 + 8000 * f * d + r * 2000

/-- Raw (pre-rounding) draw for `rebuy_revenue`:
`3000 + 5000 * repFactor * dateFactor + Math.random() * 2000`. -/
def rebuyRevenueRaw (f d r : ℚ) : ℚ := 3000 + 5000 * f * d + r * 2000

/-- Value for `new_client_revenue` (raw draw, then
`Math.round(value / 100) * 100`). -/
def newRevenueValue (f d r : ℚ) : ℤ := roundTo100 (newRevenueRaw f d r)

/-- Value for `rebuy_revenue` (raw draw, then rounded to the nearest 100). -/
def rebuyRevenueValue (f d r : ℚ) : ℤ := roundTo100 (rebuyRevenueRaw f d r)

/-- Value for `total_revenue`: the script draws a fresh `newRevenue` and a
fresh `rebuyRevenue` (two new `Math.random()` calls), sums them and rounds
the sum to the nearest 100. -/
def totalRevenueValue (f d r1 r2 : ℚ) : ℤ :=
  roundTo100 (newRevenueRaw f d r1 + rebuyRevenueRaw f d r2)

/-- The six rows `generateDataForRepresentative` of `sample-data.js`
produces for one representative on one date, in loop order (`metricNames`),
with the `master_` prefix applied to each name, each value persisted through
`value.toFixed(2)`, and `source` set to `'sample-data'`.  `d` is the date
factor and `r1 … r8` the eight `Math.random()` draws, in source order. -/
def generateDataForRepresentative (date rep : String) (d : ℚ)
    (r1 r2 r3 r4 r5 r6 r7 r8 : ℚ) : List MetricRow :=
  [⟨date, rep, "master_new_clients_closed",
      toFixed2 (newClientsValue (repFactor rep) d r1), .count, "sample-data"⟩,
   ⟨date, rep, "master_organic_clients_closed",
      toFixed2 (organicClientsValue (repFactor rep) d r2), .count,
      "sample-data"⟩,
   ⟨date, rep, "master_total_new_clients_closed",
      toFixed2 (totalClientsValue (repFactor rep) d r3 r4), .count,
      "sample-data"⟩,
   ⟨date, rep, "master_new_client_revenue",
      toFixed2 (newRevenueValue (repFactor rep) d r5), .currency,
      "sample-data"⟩,
   ⟨date, rep, "master_rebuy_revenue",
      toFixed2 (rebuyRevenueValue (repFactor rep) d r6), .currency,
      "sample-data"⟩,
   ⟨date, rep, "master_total_revenue",
      toFixed2 (totalRevenueValue (repFactor rep) d r7 r8), .currency,
      "sample-data"⟩]

end SampleData

/-- One `INSERT … ON DUPLICATE KEY UPDATE metric_value = VALUES(metric_value)`
against the table's `UNIQUE KEY (metric_date, representative, metric_name)`
(both writer scripts use this statement): if a row with the key exists its
`metric_value` is overwritten in place, otherwise the row is appended.  No
row is ever deleted. -/
def upsert (store : List MetricRow) (r : MetricRow) : List MetricRow :=
  if store.any (fun x => rowKey x = rowKey r) then
    store.map (fun x =>
      if rowKey x = rowKey r then { x with metricValue := r.metricValue }
      else x)
  else store ++ [r]

/-- A writer script's pass over the store: the upserts of its generated rows
in order. -/
def writePass (store : List MetricRow) (rows : List MetricRow) :
    List MetricRow :=
  rows.foldl upsert store

/-- Helper for literal matching at the head of a string. -/
def listStartsWith : List Char → List Char → Bool
  | [], _ => true
  | _ :: _, [] => false
  | p :: ps, c :: cs => p = c && listStartsWith ps cs

/-- MySQL `REPLACE(str, from, to)`: every non-overlapping occurrence of
`pat` in the subject, scanned left to right, is replaced by `rep`;
replacement text is not rescanned. -/
def replaceAll (pat rep : List Char) : List Char → List Char
  | [] => []
  | c :: s =>
    if h : pat ≠ [] ∧ listStartsWith pat (c :: s) = true then
      rep ++ replaceAll pat rep (List.drop pat.length (c :: s))
    else
      c :: replaceAll pat rep s
termination_by s => s.length
decreasing_by
  · simp_wf
    have hp : pat.length ≠ 0 := by
      simpa [List.length_eq_zero] using h.1
    simp [List.length_drop]
    omega
  · simp_wf

/-- MySQL `REPLACE` on strings. -/
def replaceStr (pat rep s : String) : String :=
  ⟨replaceAll pat.data rep.data s.data⟩

namespace App

/-- The dashboard's clean metric name for the total-metrics query:
`REPLACE(REPLACE(metric_name, 'calculated_', ''), 'Calculated ', '')`. -/
def cleanTotalName (n : String) : String :=
  replaceStr "Calculated " "" (replaceStr "calculated_" "" n)

/-- Row filter of the total-metrics query in `app.get("/")`:
`metric_date = ? AND metric_name LIKE 'calculated_%' AND (… one of the four
appointment/deal-size name patterns …)`. -/
def totalMetricsFilter (date : String) (r : MetricRow) : Bool :=
  r.metricDate == date && likeStr "calculated_%" r.metricName &&
    (likeStr "%appointments_booked%" r.metricName ||
     likeStr "%appointments_canceled%" r.metricName ||
     likeStr "%appointments_conducted%" r.metricName ||
     likeStr "%average_deal_size%" r.metricName)

/-- The `total_value` the total-metrics query returns for one group
(`GROUP BY clean_metric_name, metric_type`):
`CASE WHEN metric_name LIKE '%average_deal_size%' THEN AVG(metric_value)
ELSE SUM(metric_value) END`.  The non-aggregated `metric_name` in the
`CASE` is resolved, as MySQL does without `ONLY_FULL_GROUP_BY`, from a
representative row of the group (its first row; all rows of a group carry
the same name in the data the writers produce).  An empty group yields no
result row in SQL; it is mapped to `0` here and never used. -/
def totalMetricsValue (store : List MetricRow) (date clean : String)
    (ty : MType) : ℚ :=
  let grp := store.filter (fun r =>
    totalMetricsFilter date r && cleanTotalName r.metricName == clean &&
      r.metricType == ty)
  match grp with
  | [] => 0
  | r0 :: _ =>
    if likeStr "%average_deal_size%" r0.metricName then
      (grp.map MetricRow.metricValue).sum / grp.length
    else
      (grp.map MetricRow.metricValue).sum

/-- Row filter of the dashboard's master-metrics query:
`metric_date = ? AND metric_name LIKE 'master_%'`. -/
def masterMetricsFilter (date : String) (r : MetricRow) : Bool :=
  r.metricDate == date && likeStr "master_%" r.metricName

/-- The explicit `IN (…)` list of master names used by the per-representative
query in `app.get("/")`. -/
def masterMetricNames : List String :=
  ["master_new_clients_closed", "master_organic_clients_closed",
   "master_total_new_clients_closed", "master_new_client_revenue",
   "master_rebuy_revenue", "master_total_revenue"]

/-- The `clean_metric_name` of the per-representative query: the `CASE`
strips `master_` from the six listed master names, strips the
`calculated_`/`Calculated ` prefixes from `calculated_%` names, and keeps
any other name unchanged. -/
def repMetricsCleanName (n : String) : String :=
  if n ∈ masterMetricNames then replaceStr "master_" "" n
  else if likeStr "calculated_%" n then cleanTotalName n
  else n

end App

namespace VerifyMetrics

/-- The `--cleanup` operation of `verify-metrics.js`
(`DELETE FROM daily_metrics WHERE metric_name LIKE 'calculated_%'`): the
store keeps exactly the rows whose name does not match the pattern. -/
def cleanupCalculatedMetrics (store : List MetricRow) : List MetricRow :=
  store.filter (fun r => !likeStr "calculated_%" r.metricName)

end VerifyMetrics

namespace MetricCalculator

/-- Modelled from the spec: the Metric Calculator component (§4.3) of the
original automation is not part of the repository's sources (only the
dashboard and its data scripts are); per the spec's table,
`close_rate = new+organic closed / conducted × 100`, with edge case
`0 if conducted = 0`. -/
def close_rate (conducted totalClosed : ℚ) : ℚ :=
  if conducted = 0 then 0 else totalClosed / conducted * 100

/-- Modelled from the spec: per the spec's table (§4.3),
`show_rate = conducted / booked × 100`, with edge case `0 if booked = 0`. -/
def show_rate (booked conducted : ℚ) : ℚ :=
  if booked = 0 then 0 else conducted / booked * 100

end MetricCalculator

theorem rowKey_set_value (x : MetricRow) (v : ℚ) :
    rowKey { x with metricValue := v } = rowKey x := rfl

theorem rowKey_upsert_update (x r' : MetricRow) :
    rowKey (if rowKey x = rowKey r'
      then { x with metricValue := r'.metricValue } else x) = rowKey x := by
  by_cases hc : rowKey x = rowKey r'
  · rw [if_pos hc, rowKey_set_value]
  · rw [if_neg hc]

theorem upsert_map_rowKey (s : List MetricRow) (r : MetricRow) :
    (upsert s r).map rowKey =
      if s.any (fun x => rowKey x = rowKey r) then s.map rowKey
      else s.map rowKey ++ [rowKey r] := by
  unfold upsert
  split
  · rw [List.map_map]
    refine List.map_congr_left (fun x _ => ?_)
    exact rowKey_upsert_update x r
  · simp

theorem upsert_nodup_keys {s : List MetricRow} {r : MetricRow}
    (hs : (s.map rowKey).Nodup) : ((upsert s r).map rowKey).Nodup := by
  rw [upsert_map_rowKey]
  split
  · exact hs
  · rename_i h
    rw [List.nodup_append]
    refine ⟨hs, by simp, ?_⟩
    intro k hk hk'
    obtain ⟨x, hx, hxr⟩ := List.mem_map.mp hk
    simp only [List.mem_singleton] at hk'
    rw [List.any_eq_true] at h
    exact h ⟨x, hx, by simp [hxr.trans hk']⟩

theorem any_key_upsert_mono {s : List MetricRow} (r' : MetricRow)
    {k : String × String × String}
    (h : s.any (fun x => rowKey x = k) = true) :
    (upsert s r').any (fun x => rowKey x = k) = true := by
  rw [List.any_eq_true] at h
  obtain ⟨x, hx, hxk⟩ := h
  rw [decide_eq_true_eq] at hxk
  unfold upsert
  split
  · rw [List.any_eq_true]
    refine ⟨if rowKey x = rowKey r'
        then { x with metricValue := r'.metricValue } else x,
      List.mem_map.mpr ⟨x, hx, rfl⟩, ?_⟩
    rw [decide_eq_true_eq, rowKey_upsert_update]
    exact hxk
  · rw [List.any_eq_true]
    exact ⟨x, List.mem_append.mpr (Or.inl hx), by simp [hxk]⟩

theorem any_key_upsert_self (s : List MetricRow) (r : MetricRow) :
    (upsert s r).any (fun x => rowKey x = rowKey r) = true := by
  unfold upsert
  split
  · rename_i h
    rw [List.any_eq_true] at h
    obtain ⟨x, hx, hxk⟩ := h
    rw [decide_eq_true_eq] at hxk
    rw [List.any_eq_true]
    exact ⟨{ x with metricValue := r.metricValue },
      List.mem_map.mpr ⟨x, hx, by simp [hxk]⟩, by simp [rowKey_set_value, hxk]⟩
  · rw [List.any_eq_true]
    exact ⟨r, List.mem_append.mpr (Or.inr (by simp)), by simp⟩

theorem upsert_value_at_key (s : List MetricRow) (r : MetricRow) :
    ∀ x ∈ upsert s r, rowKey x = rowKey r → x.metricValue = r.metricValue := by
  unfold upsert
  split
  · intro x hx hk
    obtain ⟨y, hy, rfl⟩ := List.mem_map.mp hx
    by_cases hyk : rowKey y = rowKey r
    · simp [hyk]
    · rw [if_neg hyk] at hk ⊢
      exact absurd hk hyk
  · rename_i h
    intro x hx hk
    rcases List.mem_append.mp hx with hx | hx
    · exfalso
      rw [List.any_eq_true] at h
      exact h ⟨x, hx, by simp [hk]⟩
    · simp only [List.mem_singleton] at hx
      rw [hx]

theorem upsert_value_frame {s : List MetricRow} {k : String × String × String}
    {v : ℚ} {r' : MetricRow} (hk : rowKey r' ≠ k)
    (h : ∀ x ∈ s, rowKey x = k → x.metricValue = v) :
    ∀ x ∈ upsert s r', rowKey x = k → x.metricValue = v := by
  unfold upsert
  split
  · intro x hx hxk
    obtain ⟨y, hy, rfl⟩ := List.mem_map.mp hx
    by_cases hyk : rowKey y = rowKey r'
    · rw [if_pos hyk, rowKey_set_value] at hxk
      exact absurd (hyk.symm.trans hxk) hk
    · rw [if_neg hyk] at hxk ⊢
      exact h y hy hxk
  · intro x hx hxk
    rcases List.mem_append.mp hx with hx | hx
    · exact h x hx hxk
    · simp only [List.mem_singleton] at hx
      exact absurd (hx ▸ hxk) hk

theorem upsert_eq_self {s : List MetricRow} {r : MetricRow}
    (hp : s.any (fun x => rowKey x = rowKey r) = true)
    (hval : ∀ x ∈ s, rowKey x = rowKey r → x.metricValue = r.metricValue) :
    upsert s r = s := by
  unfold upsert
  rw [if_pos hp]
  conv_rhs => rw [← List.map_id s]
  refine List.map_congr_left (fun x hx => ?_)
  by_cases h : rowKey x = rowKey r
  · have hv := hval x hx h
    rw [if_pos h]
    cases x
    simp_all
  · rw [if_neg h]
    rfl

theorem writePass_cons (s : List MetricRow) (r : MetricRow)
    (rest : List MetricRow) :
    writePass s (r :: rest) = writePass (upsert s r) rest := rfl

theorem writePass_nodup_keys {s : List MetricRow} (rows : List MetricRow)
    (hs : (s.map rowKey).Nodup) : ((writePass s rows).map rowKey).Nodup := by
  induction rows generalizing s with
  | nil => exact hs
  | cons r rest ih =>
    rw [writePass_cons]
    exact ih (upsert_nodup_keys hs)

theorem writePass_any_mono {s : List MetricRow} (rows : List MetricRow)
    {k : String × String × String}
    (h : s.any (fun x => rowKey x = k) = true) :
    (writePass s rows).any (fun x => rowKey x = k) = true := by
  induction rows generalizing s with
  | nil => exact h
  | cons r rest ih =>
    rw [writePass_cons]
    exact ih (any_key_upsert_mono r h)

theorem writePass_value_frame {s : List MetricRow} {rows : List MetricRow}
    {k : String × String × String} {v : ℚ}
    (hrows : ∀ q ∈ rows, rowKey q ≠ k)
    (h : ∀ x ∈ s, rowKey x = k → x.metricValue = v) :
    ∀ x ∈ writePass s rows, rowKey x = k → x.metricValue = v := by
  induction rows generalizing s with
  | nil => exact h
  | cons r rest ih =>
    rw [writePass_cons]
    exact ih (fun q hq => hrows q (by simp [hq]))
      (upsert_value_frame (hrows r (by simp)) h)

theorem writePass_any_of_mem {s : List MetricRow} {rows : List MetricRow}
    {r : MetricRow} (hr : r ∈ rows) :
    (writePass s rows).any (fun x => rowKey x = rowKey r) = true := by
  induction rows generalizing s with
  | nil => exact absurd hr (List.not_mem_nil r)
  | cons q rest ih =>
    rw [writePass_cons]
    rcases List.mem_cons.mp hr with rfl | hr
    · exact writePass_any_mono rest (any_key_upsert_self s r)
    · exact ih hr

theorem writePass_rerun {s : List MetricRow} {rows : List MetricRow}
    (hs : (s.map rowKey).Nodup) (hrows : (rows.map rowKey).Nodup) :
    writePass (writePass s rows) rows = writePass s rows := by
  induction rows generalizing s with
  | nil => rfl
  | cons r rest ih =>
    rw [List.map_cons, List.nodup_cons] at hrows
    rw [writePass_cons, writePass_cons]
    have hfix : upsert (writePass (upsert s r) rest) r =
        writePass (upsert s r) rest := by
      refine upsert_eq_self
        (writePass_any_mono rest (any_key_upsert_self s r)) ?_
      refine writePass_value_frame (fun q hq hqk => ?_)
        (upsert_value_at_key s r)
      exact hrows.1 (List.mem_map.mpr ⟨q, hq, hqk⟩)
    rw [hfix]
    exact ih (upsert_nodup_keys hs) hrows.2

theorem length_filter_key_eq_one {W : List MetricRow}
    {k : String × String × String} {x : MetricRow}
    (hn : (W.map rowKey).Nodup) (hx : x ∈ W) (hk : rowKey x = k) :
    (W.filter (fun y => rowKey y = k)).length = 1 := by
  induction W with
  | nil => exact absurd hx (List.not_mem_nil x)
  | cons y ys ih =>
    rw [List.map_cons, List.nodup_cons] at hn
    rcases List.mem_cons.mp hx with rfl | hx
    · rw [List.filter_cons_of_pos (by simp [hk])]
      have hnil : ys.filter (fun z => rowKey z = k) = [] := by
        rw [List.filter_eq_nil_iff]
        intro z hz hzk
        rw [decide_eq_true_eq] at hzk
        exact hn.1 (List.mem_map.mpr ⟨z, hz, hzk.trans hk.symm⟩)
      rw [hnil]
      rfl
    · have hyk : ¬rowKey y = k := by
        intro hyk
        exact hn.1 (hyk ▸ hk ▸ List.mem_map.mpr ⟨x, hx, rfl⟩)
      rw [List.filter_cons_of_neg (by simp [hyk])]
      exact ih hn.2 hx

/-- Claim C3: at any time the metric store holds exactly one row per
composite key `(metric_date, representative, metric_name)`.  Every write of
the writer scripts is an `INSERT … ON DUPLICATE KEY UPDATE` against the
table's unique key (`ensureTableExists` in `sample-data.js`), i.e. a
replace-on-conflict upsert, never a delete-then-insert; consequently,
starting from any store with unique keys, a write pass (a) preserves key
uniqueness, (b) leaves exactly one row carrying each written key, and
(c) re-running the identical write pass leaves the store unchanged — no
duplicate rows and no double-counted values. -/
theorem c3_upsert_unique_key_idempotent (s rows : List MetricRow)
    (hs : (s.map rowKey).Nodup) (hrows : (rows.map rowKey).Nodup) :
    ((writePass s rows).map rowKey).Nodup ∧
    (∀ r ∈ rows, ((writePass s rows).filter
      (fun y => rowKey y = rowKey r)).length = 1) ∧
    writePass (writePass s rows) rows = writePass s rows := by
  refine ⟨writePass_nodup_keys rows hs, fun r hr => ?_,
    writePass_rerun hs hrows⟩
  have hany := writePass_any_of_mem (s := s) hr
  rw [List.any_eq_true] at hany
  obtain ⟨x, hx, hxk⟩ := hany
  rw [decide_eq_true_eq] at hxk
  exact length_filter_key_eq_one (writePass_nodup_keys rows hs) hx hxk

/-- Witness for C3 at a concrete store and write pass. -/
theorem c3_upsert_unique_key_idempotent_witness :
    ((([] : List MetricRow).map rowKey).Nodup ∧
      (([⟨"2025-07-01", "sierra", "master_total_revenue", 100, .currency,
          "sample-data"⟩,
        ⟨"2025-07-01", "mike", "master_total_revenue", 50, .currency,
          "sample-data"⟩] : List MetricRow).map rowKey).Nodup) ∧
    (((writePass []
        [⟨"2025-07-01", "sierra", "master_total_revenue", 100, .currency,
          "sample-data"⟩,
         ⟨"2025-07-01", "mike", "master_total_revenue", 50, .currency,
          "sample-data"⟩]).map rowKey).Nodup ∧
      (∀ r ∈ ([⟨"2025-07-01", "sierra", "master_total_revenue", 100,
          .currency, "sample-data"⟩,
        ⟨"2025-07-01", "mike", "master_total_revenue", 50, .currency,
          "sample-data"⟩] : List MetricRow),
        ((writePass []
          [⟨"2025-07-01", "sierra", "master_total_revenue", 100, .currency,
            "sample-data"⟩,
           ⟨"2025-07-01", "mike", "master_total_revenue", 50, .currency,
            "sample-data"⟩]).filter
          (fun y => rowKey y = rowKey r)).length = 1) ∧
      writePass (writePass []
          [⟨"2025-07-01", "sierra", "master_total_revenue", 100, .currency,
            "sample-data"⟩,
           ⟨"2025-07-01", "mike", "master_total_revenue", 50, .currency,
            "sample-data"⟩])
          [⟨"2025-07-01", "sierra", "master_total_revenue", 100, .currency,
            "sample-data"⟩,
           ⟨"2025-07-01", "mike", "master_total_revenue", 50, .currency,
            "sample-data"⟩] =
        writePass []
          [⟨"2025-07-01", "sierra", "master_total_revenue", 100, .currency,
            "sample-data"⟩,
           ⟨"2025-07-01", "mike", "master_total_revenue", 50, .currency,
            "sample-data"⟩]) :=
  ⟨⟨by simp, by decide⟩,
    c3_upsert_unique_key_idempotent _ _ (by simp) (by decide)⟩

/-- Claim C4 (spec-modelled; the Metric Calculator is not among the
repository's source files): for every bucket, a zero divisor makes the
percentage metric 0 rather than a division error — `show_rate` is 0 when
`booked = 0`, and `close_rate` is 0 when `conducted = 0`; both functions
are total, so no error branch exists. -/
theorem c4_zero_divisor_yields_zero (booked conducted totalClosed : ℚ) :
    (booked = 0 → MetricCalculator.show_rate booked conducted = 0) ∧
    (conducted = 0 →
      MetricCalculator.close_rate conducted totalClosed = 0) := by
  constructor
  · intro h
    simp [MetricCalculator.show_rate, h]
  · intro h
    simp [MetricCalculator.close_rate, h]

/-- Witness for C4: the `booked = 0` / `conducted = 0` bucket. -/
theorem c4_zero_divisor_yields_zero_witness :
    ((0:ℚ) = 0 ∧ MetricCalculator.show_rate 0 0 = 0) ∧
    ((0:ℚ) = 0 ∧ MetricCalculator.close_rate 0 3 = 0) :=
  ⟨⟨rfl, (c4_zero_divisor_yields_zero 0 0 3).1 rfl⟩,
   ⟨rfl, (c4_zero_divisor_yields_zero 0 0 3).2 rfl⟩⟩

theorem repFactor_pos (rep : String) : 0 < repFactor rep := by
  unfold repFactor
  split
  · norm_num
  · split
    · norm_num
    · norm_num

theorem repFactor_le (rep : String) : repFactor rep ≤ 12/10 := by
  unfold repFactor
  split
  · norm_num
  · split
    · norm_num
    · norm_num

theorem toFixed2_nonneg {x : ℚ} (h : 0 ≤ x) : 0 ≤ toFixed2 x := by
  unfold toFixed2
  have h1 : (0:ℤ) ≤ jsRound (100 * x) := jsRound_nonneg (by linarith)
  have h2 : (0:ℚ) ≤ (jsRound (100 * x) : ℚ) := by exact_mod_cast h1
  linarith

theorem toFixed2_le_100 {x : ℚ} (h : x ≤ 100) : toFixed2 x ≤ 100 := by
  unfold toFixed2
  have h1 : jsRound (100 * x) ≤ jsRound ((10000 : ℤ) : ℚ) :=
    jsRound_mono (by push_cast; linarith)
  rw [jsRound_intCast] at h1
  have h2 : (jsRound (100 * x) : ℚ) ≤ 10000 := by exact_mod_cast h1
  linarith

/-- Claim C7: every persisted percentage metric value — `close_rate` and
`show_rate` as generated by `add-today-data.js` for any representative
(both draw a base plus `repFactor`-scaled term plus a random term, then cap
with `Math.min(100, value)`) and stored through `toFixed(2)` — lies in
[0, 100], for every non-negative random draw. -/
theorem c7_percentages_in_range (rep : String) (r : ℚ) (hr : 0 ≤ r) :
    (0 ≤ toFixed2 (AddTodayData.closeRateValue (repFactor rep) r) ∧
      toFixed2 (AddTodayData.closeRateValue (repFactor rep) r) ≤ 100) ∧
    (0 ≤ toFixed2 (AddTodayData.showRateValue (repFactor rep) r) ∧
      toFixed2 (AddTodayData.showRateValue (repFactor rep) r) ≤ 100) := by
  have hf := repFactor_pos rep
  unfold AddTodayData.closeRateValue AddTodayData.showRateValue
  refine ⟨⟨toFixed2_nonneg (le_min (by norm_num) (by linarith)),
      toFixed2_le_100 (min_le_left _ _)⟩,
    ⟨toFixed2_nonneg (le_min (by norm_num) (by linarith)),
      toFixed2_le_100 (min_le_left _ _)⟩⟩

/-- Witness for C7: representative `sierra`, random draw 0. -/
theorem c7_percentages_in_range_witness :
    (0:ℚ) ≤ 0 ∧
    ((0 ≤ toFixed2 (AddTodayData.closeRateValue (repFactor "sierra") 0) ∧
      toFixed2 (AddTodayData.closeRateValue (repFactor "sierra") 0) ≤ 100) ∧
    (0 ≤ toFixed2 (AddTodayData.showRateValue (repFactor "sierra") 0) ∧
      toFixed2 (AddTodayData.showRateValue (repFactor "sierra") 0) ≤ 100)) :=
  ⟨le_refl 0, c7_percentages_in_range "sierra" 0 (le_refl 0)⟩

theorem roundTo100_toFixed2_exact (x : ℚ) :
    toFixed2 ((roundTo100 x : ℤ) : ℚ) = ((roundTo100 x : ℤ) : ℚ) ∧
    ∃ k : ℤ, ((roundTo100 x : ℤ) : ℚ) = 100 * k := by
  refine ⟨toFixed2_intCast _, ⟨jsRound (x / 100), ?_⟩⟩
  unfold roundTo100
  push_cast
  ring

/-- Claim C8: every currency metric value the writer scripts store —
`average_deal_size` in `add-today-data.js` and `new_client_revenue`,
`rebuy_revenue`, `total_revenue` in `sample-data.js` — is persisted through
`value.toFixed(2)` (half-up rounding to two decimal places, `toFixed2`
here), and this rounding is exact: each such value is already an integer
multiple of 100 (the scripts round currency to the nearest 100 first), so
the stored value carries exactly two (zero) decimal places and equals the
computed value. -/
theorem c8_currency_two_decimals (f d r r' : ℚ) :
    (toFixed2 (AddTodayData.avgDealSizeValue f r : ℚ) =
        (AddTodayData.avgDealSizeValue f r : ℚ) ∧
      ∃ k : ℤ, (AddTodayData.avgDealSizeValue f r : ℚ) = 100 * k) ∧
    (toFixed2 (SampleData.newRevenueValue f d r : ℚ) =
        (SampleData.newRevenueValue f d r : ℚ) ∧
      ∃ k : ℤ, (SampleData.newRevenueValue f d r : ℚ) = 100 * k) ∧
    (toFixed2 (SampleData.rebuyRevenueValue f d r : ℚ) =
        (SampleData.rebuyRevenueValue f d r : ℚ) ∧
      ∃ k : ℤ, (SampleData.rebuyRevenueValue f d r : ℚ) = 100 * k) ∧
    (toFixed2 (SampleData.totalRevenueValue f d r r' : ℚ) =
        (SampleData.totalRevenueValue f d r r' : ℚ) ∧
      ∃ k : ℤ, (SampleData.totalRevenueValue f d r r' : ℚ) = 100 * k) := by
  unfold AddTodayData.avgDealSizeValue SampleData.newRevenueValue
    SampleData.rebuyRevenueValue SampleData.totalRevenueValue
  exact ⟨roundTo100_toFixed2_exact _, roundTo100_toFixed2_exact _,
    roundTo100_toFixed2_exact _, roundTo100_toFixed2_exact _⟩

/-- Counterexample to claim C2: with `Math.random()` draws 0, 0, 4/5, 0, …
for representative `mike` (factor 0.8), `add-today-data.js` stores
`appointments_booked = 4` (from its own draw 0) but
`appointments_conducted = 7` (from a fresh booked draw 4/5 and canceled
draw 0), so the persisted bucket violates `conducted ≤ booked`: the script
derives conducted from fresh draws instead of clamping against the stored
booked value. -/
theorem c2_counterexample :
    ((AddTodayData.generateDataForRepresentative "2025-07-01" "mike"
        0 0 (4/5) 0 0 0 0).filter
      (fun r => r.metricName == "calculated_appointments_booked")).map
      MetricRow.metricValue = [4] ∧
    ((AddTodayData.generateDataForRepresentative "2025-07-01" "mike"
        0 0 (4/5) 0 0 0 0).filter
      (fun r => r.metricName == "calculated_appointments_conducted")).map
      MetricRow.metricValue = [7] ∧
    ¬ ((7:ℚ) ≤ 4) := by
  refine ⟨?_, ?_, by norm_num⟩
  · simp [AddTodayData.generateDataForRepresentative, List.filter,
      repFactor]
    norm_num [AddTodayData.bookedValue, toFixed2, jsRound]
  · simp [AddTodayData.generateDataForRepresentative, List.filter,
      repFactor]
    norm_num [AddTodayData.conductedValue, toFixed2, jsRound]

/-- Claim C2 amended: `add-today-data.js` computes `appointments_conducted`
as `max(0, booked - canceled)` from its own fresh draws, so the stored
conducted value is always non-negative and never exceeds the booked value
recomputed from the conducted metric's own draw — but it is not clamped
against the separately-drawn stored `appointments_booked` and can exceed
it (see the counterexample). -/
theorem c2_conducted_within_own_draw (f r c : ℚ)
    (hf : 0 ≤ f) (hr : 0 ≤ r) (hc : 0 ≤ c) :
    0 ≤ AddTodayData.conductedValue f r c ∧
    AddTodayData.conductedValue f r c ≤ AddTodayData.bookedValue f r := by
  unfold AddTodayData.conductedValue AddTodayData.bookedValue
  constructor
  · exact le_max_left 0 _
  · have hC : 0 ≤ jsRound (1 * f + c * 2) := jsRound_nonneg (by linarith)
    have hB : 0 ≤ jsRound (5 * f + r * 5) := jsRound_nonneg (by linarith)
    exact max_le hB (by omega)

/-- Witness for the amended C2 at factor 1 and draws 0. -/
theorem c2_conducted_within_own_draw_witness :
    ((0:ℚ) ≤ 1 ∧ (0:ℚ) ≤ 0) ∧
    (0 ≤ AddTodayData.conductedValue 1 0 0 ∧
      AddTodayData.conductedValue 1 0 0 ≤ AddTodayData.bookedValue 1 0) :=
  ⟨⟨by norm_num, le_refl 0⟩,
    c2_conducted_within_own_draw 1 0 0 (by norm_num) (le_refl 0) (le_refl 0)⟩

/-- Counterexample to claim C5: for representative `mikaela` (factor 1) at
date factor 1, with revenue draws 0 (new), 0 (rebuy) and 1/2, 0 for the
total, `sample-data.js` stores `new_client_revenue = 13000`,
`rebuy_revenue = 8000` but `total_revenue = 22000 ≠ 13000 + 8000`: the
total is computed from two fresh revenue draws, not from the stored
component values. -/
theorem c5_counterexample :
    ((SampleData.generateDataForRepresentative "2025-07-01" "mikaela" 1
        0 0 0 0 0 0 (1/2) 0).filter
      (fun r => r.metricName == "master_new_client_revenue")).map
      MetricRow.metricValue = [13000] ∧
    ((SampleData.generateDataForRepresentative "2025-07-01" "mikaela" 1
        0 0 0 0 0 0 (1/2) 0).filter
      (fun r => r.metricName == "master_rebuy_revenue")).map
      MetricRow.metricValue = [8000] ∧
    ((SampleData.generateDataForRepresentative "2025-07-01" "mikaela" 1
        0 0 0 0 0 0 (1/2) 0).filter
      (fun r => r.metricName == "master_total_revenue")).map
      MetricRow.metricValue = [22000] ∧
    (22000 : ℚ) ≠ 13000 + 8000 := by
  refine ⟨?_, ?_, ?_, by norm_num⟩
  · simp [SampleData.generateDataForRepresentative, List.filter, repFactor]
    norm_num [SampleData.newRevenueValue, SampleData.newRevenueRaw,
      roundTo100, toFixed2, jsRound]
  · simp [SampleData.generateDataForRepresentative, List.filter, repFactor]
    norm_num [SampleData.rebuyRevenueValue, SampleData.rebuyRevenueRaw,
      roundTo100, toFixed2, jsRound]
  · simp [SampleData.generateDataForRepresentative, List.filter, repFactor]
    norm_num [SampleData.totalRevenueValue, SampleData.newRevenueRaw,
      SampleData.rebuyRevenueRaw, roundTo100, toFixed2, jsRound]

theorem roundTo100_add_bound (x y : ℚ) :
    |((roundTo100 (x + y) : ℤ) : ℚ) -
      (((roundTo100 x : ℤ) : ℚ) + ((roundTo100 y : ℤ) : ℚ))| ≤ 100 := by
  unfold roundTo100
  have hu1 := jsRound_le (x / 100)
  have hu2 := lt_jsRound (x / 100)
  have hv1 := jsRound_le (y / 100)
  have hv2 := lt_jsRound (y / 100)
  have hw1 := jsRound_le ((x + y) / 100)
  have hw2 := lt_jsRound ((x + y) / 100)
  have hq1 : ((jsRound ((x + y) / 100) - jsRound (x / 100) -
      jsRound (y / 100) : ℤ) : ℚ) < 2 := by
    push_cast
    linarith
  have hq2 : (-2 : ℚ) < ((jsRound ((x + y) / 100) - jsRound (x / 100) -
      jsRound (y / 100) : ℤ) : ℚ) := by
    push_cast
    linarith
  have hz1 : jsRound ((x + y) / 100) - jsRound (x / 100) -
      jsRound (y / 100) < 2 := by exact_mod_cast hq1
  have hz2 : (-2 : ℤ) < jsRound ((x + y) / 100) - jsRound (x / 100) -
      jsRound (y / 100) := by exact_mod_cast hq2
  rw [abs_le]
  constructor
  · push_cast
    have : (-1 : ℤ) ≤ jsRound ((x + y) / 100) - jsRound (x / 100) -
        jsRound (y / 100) := by omega
    have hq : (-1 : ℚ) ≤ ((jsRound ((x + y) / 100) : ℚ) -
        jsRound (x / 100) - jsRound (y / 100)) := by exact_mod_cast this
    linarith
  · push_cast
    have : jsRound ((x + y) / 100) - jsRound (x / 100) -
        jsRound (y / 100) ≤ 1 := by omega
    have hq : ((jsRound ((x + y) / 100) : ℚ) -
        jsRound (x / 100) - jsRound (y / 100)) ≤ 1 := by exact_mod_cast this
    linarith

/-- Claim C5 amended: `sample-data.js` stores `total_revenue` as the
rounded sum of two fresh revenue draws, so the stored total need not equal
the stored `new_client_revenue` plus the stored `rebuy_revenue` (see the
counterexample); even when the total's draws coincide with the components'
draws, the three values are rounded to the nearest 100 independently and
the identity holds only up to a rounding discrepancy of at most 100. -/
theorem c5_total_revenue_rounding_bound (f d a b : ℚ) :
    |((SampleData.totalRevenueValue f d a b : ℤ) : ℚ) -
      (((SampleData.newRevenueValue f d a : ℤ) : ℚ) +
        ((SampleData.rebuyRevenueValue f d b : ℤ) : ℚ))| ≤ 100 := by
  unfold SampleData.totalRevenueValue SampleData.newRevenueValue
    SampleData.rebuyRevenueValue
  exact roundTo100_add_bound (SampleData.newRevenueRaw f d a)
    (SampleData.rebuyRevenueRaw f d b)

/-- Counterexample to claim C6: for representative `mikaela` (factor 1) at
date factor 1, with count draws 0 (new), 0 (organic) and 1/2, 0 for the
total, `sample-data.js` stores `new_clients_closed = 3`,
`organic_clients_closed = 2` but `total_new_clients_closed = 7 ≠ 3 + 2`:
the total is computed from two fresh draws, not from the stored component
values. -/
theorem c6_counterexample :
    ((SampleData.generateDataForRepresentative "2025-07-01" "mikaela" 1
        0 0 (1/2) 0 0 0 0 0).filter
      (fun r => r.metricName == "master_new_clients_closed")).map
      MetricRow.metricValue = [3] ∧
    ((SampleData.generateDataForRepresentative "2025-07-01" "mikaela" 1
        0 0 (1/2) 0 0 0 0 0).filter
      (fun r => r.metricName == "master_organic_clients_closed")).map
      MetricRow.metricValue = [2] ∧
    ((SampleData.generateDataForRepresentative "2025-07-01" "mikaela" 1
        0 0 (1/2) 0 0 0 0 0).filter
      (fun r => r.metricName == "master_total_new_clients_closed")).map
      MetricRow.metricValue = [7] ∧
    (7 : ℚ) ≠ 3 + 2 := by
  refine ⟨?_, ?_, ?_, by norm_num⟩
  · simp [SampleData.generateDataForRepresentative, List.filter, repFactor]
    norm_num [SampleData.newClientsValue, toFixed2, jsRound]
  · simp [SampleData.generateDataForRepresentative, List.filter, repFactor]
    norm_num [SampleData.organicClientsValue, toFixed2, jsRound]
  · simp [SampleData.generateDataForRepresentative, List.filter, repFactor]
    norm_num [SampleData.totalClientsValue, SampleData.newClientsValue,
      SampleData.organicClientsValue, toFixed2, jsRound]

theorem jsRound_draw_bounds (x : ℚ) (n : ℤ) (hn : 0 ≤ n) {r : ℚ}
    (h0 : 0 ≤ r) (h1 : r < 1) :
    jsRound x ≤ jsRound (x + r * n) ∧
    jsRound (x + r * n) ≤ jsRound x + n := by
  have hn' : (0:ℚ) ≤ (n:ℚ) := by exact_mod_cast hn
  constructor
  · exact jsRound_mono (by nlinarith)
  · have h2 : x + r * n ≤ x + n := by nlinarith
    calc jsRound (x + r * n) ≤ jsRound (x + (n:ℚ)) := jsRound_mono h2
      _ = jsRound x + n := jsRound_add_int x n

/-- Claim C6 amended: `sample-data.js` stores `total_new_clients_closed`
as the sum of two fresh draws of the `new`/`organic` generators, so it need
not equal the stored `new_clients_closed` plus the stored
`organic_clients_closed` (see the counterexample); for draws in [0, 1) the
stored total differs from the sum of the stored components by at most 7
(the combined spread of the two random terms). -/
theorem c6_total_clients_draw_bound (f d r1 r2 s1 s2 : ℚ)
    (hr1 : 0 ≤ r1) (hr1' : r1 < 1) (hr2 : 0 ≤ r2) (hr2' : r2 < 1)
    (hs1 : 0 ≤ s1) (hs1' : s1 < 1) (hs2 : 0 ≤ s2) (hs2' : s2 < 1) :
    |SampleData.totalClientsValue f d s1 s2 -
      (SampleData.newClientsValue f d r1 +
        SampleData.organicClientsValue f d r2)| ≤ 7 := by
  unfold SampleData.totalClientsValue SampleData.newClientsValue
    SampleData.organicClientsValue
  have b1 := jsRound_draw_bounds (3*f*d) 4 (by norm_num) hr1 hr1'
  have b1' := jsRound_draw_bounds (3*f*d) 4 (by norm_num) hs1 hs1'
  have b2 := jsRound_draw_bounds (2*f*d) 3 (by norm_num) hr2 hr2'
  have b2' := jsRound_draw_bounds (2*f*d) 3 (by norm_num) hs2 hs2'
  push_cast at b1 b1' b2 b2'
  rw [abs_le]
  omega

/-- Witness for the amended C6 at factor 1, date factor 1, component draws
0 and total draws 1/2, 0 (the counterexample's bucket). -/
theorem c6_total_clients_draw_bound_witness :
    ((0:ℚ) ≤ 0 ∧ (0:ℚ) < 1 ∧ (0:ℚ) ≤ 1/2 ∧ (1/2:ℚ) < 1) ∧
    |SampleData.totalClientsValue 1 1 (1/2) 0 -
      (SampleData.newClientsValue 1 1 0 +
        SampleData.organicClientsValue 1 1 0)| ≤ 7 :=
  ⟨⟨le_refl 0, by norm_num, by norm_num, by norm_num⟩,
    c6_total_clients_draw_bound 1 1 0 0 (1/2) 0 (le_refl 0) (by norm_num)
      (le_refl 0) (by norm_num) (by norm_num) (by norm_num) (le_refl 0)
      (by norm_num)⟩

/-- Counterexample to claim C1: take per-representative
`calculated_average_deal_size` rows of 100 (sierra — e.g. 200 revenue over
2 deals) and 50 (mikaela — 50 revenue over 1 deal).  The dashboard's
total-metrics query returns `AVG(metric_value) = 75`, i.e. exactly the
average of the per-representative averages, while recomputing from the
underlying totals would give (200 + 50) / (2 + 1) ≠ 75. -/
theorem c1_counterexample :
    App.totalMetricsValue
      [⟨"2025-07-01", "sierra", "calculated_average_deal_size", 100,
          .currency, "today-data-script"⟩,
       ⟨"2025-07-01", "mikaela", "calculated_average_deal_size", 50,
          .currency, "today-data-script"⟩]
      "2025-07-01" "average_deal_size" .currency = 75 ∧
    (75 : ℚ) = (100 + 50) / 2 ∧
    (100 : ℚ) = 200 / 2 ∧
    (50 : ℚ) = 50 / 1 ∧
    (200 + 50) / ((2 : ℚ) + 1) ≠ 75 := by
  refine ⟨?_, by norm_num, by norm_num, by norm_num, by norm_num⟩
  simp [App.totalMetricsValue, App.totalMetricsFilter, App.cleanTotalName,
    replaceStr, replaceAll, listStartsWith, likeStr, likeChars, List.filter]
  norm_num

/-- Claim C1 amended: in the dashboard's total-metrics rollup the count
metrics (`appointments_booked`, `appointments_canceled`,
`appointments_conducted`) are summed across representatives, but
`average_deal_size` — the only currency metric the rollup query selects —
is aggregated with `AVG(metric_value)`, the plain average of the
per-representative `average_deal_size` values; no recomputation from
underlying revenue/deal totals takes place (the query reads no such
totals). -/
theorem c1_rollup_avg_of_averages (date : String) (v1 v2 v3 b1 b2 b3 : ℚ) :
    App.totalMetricsValue
      [⟨date, "sierra", "calculated_average_deal_size", v1, .currency,
          "today-data-script"⟩,
       ⟨date, "mikaela", "calculated_average_deal_size", v2, .currency,
          "today-data-script"⟩,
       ⟨date, "mike", "calculated_average_deal_size", v3, .currency,
          "today-data-script"⟩,
       ⟨date, "sierra", "calculated_appointments_booked", b1, .count,
          "today-data-script"⟩,
       ⟨date, "mikaela", "calculated_appointments_booked", b2, .count,
          "today-data-script"⟩,
       ⟨date, "mike", "calculated_appointments_booked", b3, .count,
          "today-data-script"⟩]
      date "average_deal_size" .currency = (v1 + v2 + v3) / 3 ∧
    App.totalMetricsValue
      [⟨date, "sierra", "calculated_average_deal_size", v1, .currency,
          "today-data-script"⟩,
       ⟨date, "mikaela", "calculated_average_deal_size", v2, .currency,
          "today-data-script"⟩,
       ⟨date, "mike", "calculated_average_deal_size", v3, .currency,
          "today-data-script"⟩,
       ⟨date, "sierra", "calculated_appointments_booked", b1, .count,
          "today-data-script"⟩,
       ⟨date, "mikaela", "calculated_appointments_booked", b2, .count,
          "today-data-script"⟩,
       ⟨date, "mike", "calculated_appointments_booked", b3, .count,
          "today-data-script"⟩]
      date "appointments_booked" .count = b1 + b2 + b3 := by
  constructor
  · simp [App.totalMetricsValue, App.totalMetricsFilter, App.cleanTotalName,
      replaceStr, replaceAll, listStartsWith, likeStr, likeChars,
      List.filter]
    ring
  · simp [App.totalMetricsValue, App.totalMetricsFilter, App.cleanTotalName,
      replaceStr, replaceAll, listStartsWith, likeStr, likeChars,
      List.filter]
    ring

/-- Claim C9: the writer scripts only ever store prefixed metric names —
`add-today-data.js` writes exactly the six `calculated_*` names and
`sample-data.js` exactly the six `master_*` names, so no bare metric name
from the spec's twelve-metric table ever appears as a `metric_name`; the
dashboard's master-metrics query selects the `master_*` rows (and none of
the `calculated_*` rows) and its `CASE`/`REPLACE` projection strips the
prefixes back off for display. -/
theorem c9_prefixed_names (d1 d2 rep1 rep2 : String)
    (q1 q2 q3 q4 q5 q6 q7 df r1 r2 r3 r4 r5 r6 r7 r8 : ℚ) :
    ((AddTodayData.generateDataForRepresentative d1 rep1
        q1 q2 q3 q4 q5 q6 q7).map MetricRow.metricName =
      ["calculated_appointments_booked", "calculated_appointments_canceled",
       "calculated_appointments_conducted", "calculated_average_deal_size",
       "calculated_close_rate", "calculated_show_rate"]) ∧
    ((SampleData.generateDataForRepresentative d2 rep2 df
        r1 r2 r3 r4 r5 r6 r7 r8).map MetricRow.metricName =
      ["master_new_clients_closed", "master_organic_clients_closed",
       "master_total_new_clients_closed", "master_new_client_revenue",
       "master_rebuy_revenue", "master_total_revenue"]) ∧
    (∀ n ∈ ["appointments_booked", "appointments_canceled",
        "appointments_conducted", "close_rate", "show_rate",
        "average_deal_size", "new_clients_closed", "organic_clients_closed",
        "total_new_clients_closed", "new_client_revenue", "rebuy_revenue",
        "total_revenue"],
      n ∉ (AddTodayData.generateDataForRepresentative d1 rep1
        q1 q2 q3 q4 q5 q6 q7).map MetricRow.metricName ∧
      n ∉ (SampleData.generateDataForRepresentative d2 rep2 df
        r1 r2 r3 r4 r5 r6 r7 r8).map MetricRow.metricName) ∧
    (∀ r ∈ SampleData.generateDataForRepresentative d2 rep2 df
        r1 r2 r3 r4 r5 r6 r7 r8, App.masterMetricsFilter d2 r = true) ∧
    (∀ r ∈ AddTodayData.generateDataForRepresentative d1 rep1
        q1 q2 q3 q4 q5 q6 q7, App.masterMetricsFilter d1 r = false) ∧
    (App.masterMetricNames.map App.repMetricsCleanName =
      ["new_clients_closed", "organic_clients_closed",
       "total_new_clients_closed", "new_client_revenue", "rebuy_revenue",
       "total_revenue"]) ∧
    (["calculated_appointments_booked", "calculated_appointments_canceled",
      "calculated_appointments_conducted", "calculated_average_deal_size",
      "calculated_close_rate",
      "calculated_show_rate"].map App.repMetricsCleanName =
      ["appointments_booked", "appointments_canceled",
       "appointments_conducted", "average_deal_size", "close_rate",
       "show_rate"]) := by
  refine ⟨rfl, rfl, ?_, ?_, ?_, ?_, ?_⟩
  · intro n hn
    have h1 : (AddTodayData.generateDataForRepresentative d1 rep1
        q1 q2 q3 q4 q5 q6 q7).map MetricRow.metricName =
      ["calculated_appointments_booked", "calculated_appointments_canceled",
       "calculated_appointments_conducted", "calculated_average_deal_size",
       "calculated_close_rate", "calculated_show_rate"] := rfl
    have h2 : (SampleData.generateDataForRepresentative d2 rep2 df
        r1 r2 r3 r4 r5 r6 r7 r8).map MetricRow.metricName =
      ["master_new_clients_closed", "master_organic_clients_closed",
       "master_total_new_clients_closed", "master_new_client_revenue",
       "master_rebuy_revenue", "master_total_revenue"] := rfl
    rw [h1, h2]
    fin_cases hn <;> exact ⟨by decide, by decide⟩
  · intro r hr
    simp only [SampleData.generateDataForRepresentative, List.mem_cons,
      List.not_mem_nil, or_false] at hr
    rcases hr with rfl | rfl | rfl | rfl | rfl | rfl <;>
      simp [App.masterMetricsFilter, likeStr, likeChars]
  · intro r hr
    simp only [AddTodayData.generateDataForRepresentative, List.mem_cons,
      List.not_mem_nil, or_false] at hr
    rcases hr with rfl | rfl | rfl | rfl | rfl | rfl <;>
      simp [App.masterMetricsFilter, likeStr, likeChars]
  · simp [App.masterMetricNames, App.repMetricsCleanName, App.cleanTotalName,
      replaceStr, replaceAll, listStartsWith, likeStr, likeChars]
  · simp [App.masterMetricNames, App.repMetricsCleanName, App.cleanTotalName,
      replaceStr, replaceAll, listStartsWith, likeStr, likeChars]

/-- Witness for C9 at concrete dates, representatives and draws. -/
theorem c9_prefixed_names_witness :
    "appointments_booked" ∈ ["appointments_booked", "appointments_canceled",
        "appointments_conducted", "close_rate", "show_rate",
        "average_deal_size", "new_clients_closed", "organic_clients_closed",
        "total_new_clients_closed", "new_client_revenue", "rebuy_revenue",
        "total_revenue"] ∧
    ("appointments_booked" ∉ (AddTodayData.generateDataForRepresentative
        "2025-07-01" "sierra" 0 0 0 0 0 0 0).map MetricRow.metricName ∧
     "appointments_booked" ∉ (SampleData.generateDataForRepresentative
        "2025-07-01" "sierra" 1 0 0 0 0 0 0 0 0).map MetricRow.metricName) :=
  ⟨by decide,
    (c9_prefixed_names "2025-07-01" "2025-07-01" "sierra" "sierra"
      0 0 0 0 0 0 0 1 0 0 0 0 0 0 0 0).2.2.1 "appointments_booked"
      (by decide)⟩

/-- Counterexample to claim C10: the cleanup's SQL pattern
`'calculated_%'` treats `_` as the single-character wildcard, so a row
named `calculatedXmetric` — which does not begin with the literal prefix
`calculated_` — is nevertheless deleted by
`DELETE FROM daily_metrics WHERE metric_name LIKE 'calculated_%'`. -/
theorem c10_counterexample :
    VerifyMetrics.cleanupCalculatedMetrics
      [⟨"2025-07-01", "sierra", "calculatedXmetric", 5, .count, "manual"⟩] =
      [] ∧
    ¬ ∃ t, "calculatedXmetric".data = "calculated_".data ++ t := by
  constructor
  · simp [VerifyMetrics.cleanupCalculatedMetrics, likeStr, likeChars,
      List.filter]
  · rintro ⟨t, h⟩
    simp [List.cons_eq_cons] at h

/-- Claim C10 amended: `cleanupCalculatedMetrics` keeps exactly the rows
whose `metric_name` does not match the SQL pattern `calculated_%` — i.e.
it deletes exactly the names consisting of `calculated` followed by at
least one arbitrary character ( `_` being the single-character wildcard).
In particular every `master_`-prefixed row is left unchanged and every
`calculated_`-prefixed row is deleted, but a name such as
`calculatedXmetric`, which does not begin with `calculated_`, is deleted
too (see the counterexample). -/
theorem c10_cleanup_exactly_pattern (store : List MetricRow)
    (r : MetricRow) :
    (r ∈ VerifyMetrics.cleanupCalculatedMetrics store ↔
      r ∈ store ∧ ¬ ∃ c t, r.metricName.data = "calculated".data ++ c :: t) ∧
    ((∃ t, r.metricName.data = "master_".data ++ t) → r ∈ store →
      r ∈ VerifyMetrics.cleanupCalculatedMetrics store) ∧
    ((∃ t, r.metricName.data = "calculated_".data ++ t) →
      r ∉ VerifyMetrics.cleanupCalculatedMetrics store) := by
  have hmain : r ∈ VerifyMetrics.cleanupCalculatedMetrics store ↔
      r ∈ store ∧ ¬ ∃ c t, r.metricName.data = "calculated".data ++ c :: t := by
    rw [VerifyMetrics.cleanupCalculatedMetrics, List.mem_filter]
    refine and_congr_right (fun _ => ?_)
    rw [Bool.not_eq_true']
    constructor
    · intro hfalse hex
      rw [(likeStr_calculated_iff r.metricName).mpr hex] at hfalse
      exact Bool.noConfusion hfalse
    · intro hnex
      cases hlike : likeStr "calculated_%" r.metricName
      · rfl
      · exact absurd ((likeStr_calculated_iff r.metricName).mp hlike) hnex
  refine ⟨hmain, ?_, ?_⟩
  · rintro ⟨t, ht⟩ hmem
    refine hmain.mpr ⟨hmem, ?_⟩
    rintro ⟨c, u, hcu⟩
    rw [ht] at hcu
    simp [List.cons_eq_cons] at hcu
  · rintro ⟨t, ht⟩ hmem
    obtain ⟨-, hnex⟩ := hmain.mp hmem
    exact hnex ⟨'_', t, by rw [ht]; rfl⟩

/-- Witness for the amended C10: a `calculated_`-prefixed row is deleted. -/
theorem c10_cleanup_exactly_pattern_witness :
    (∃ t, ("calculated_foo" : String).data = "calculated_".data ++ t) ∧
    (⟨"2025-07-01", "sierra", "calculated_foo", 5, .count, "manual"⟩ :
        MetricRow) ∉
      VerifyMetrics.cleanupCalculatedMetrics
        [⟨"2025-07-01", "sierra", "calculated_foo", 5, .count, "manual"⟩] :=
  ⟨⟨"foo".data, rfl⟩,
    (c10_cleanup_exactly_pattern
      [⟨"2025-07-01", "sierra", "calculated_foo", 5, .count, "manual"⟩]
      ⟨"2025-07-01", "sierra", "calculated_foo", 5, .count, "manual"⟩).2.2
      ⟨"foo".data, rfl⟩⟩
